import Mathlib

/-!
Verification of the `Transfer` resource module (`src/resources/transfer.rs`)
of the stripe-rs SDK fork: the `Transfer` record with its serde
(de)serialization behaviour, the `Object` trait implementation (`id`,
`object`), the `TransferListParams` query-parameter record, and the
`Transfer::list` wrapper around the injected HTTP client.

The JSON wire format is embedded as an explicit inductive `Json`;
serde-derived (de)serialization of `Transfer` is translated field by field
from the struct declaration (required fields, `Option` fields with
`skip_serializing_if = "Option::is_none"`). Types that live outside this
module (`Expandable`, `List<T>`, `Metadata`, `Currency`, `RangeQuery`,
`Client`) are modelled from the specification, as marked on each
definition.
-/

set_option autoImplicit false

/-- A JSON value. Numbers are integers: every numeric field of this module
(`amount`, `amount_reversed`, `created`, `limit`) is an integer type. -/
inductive Json where
  | null
  | bool (b : Bool)
  | num (n : Int)
  | str (s : String)
  | arr (elems : List Json)
  | obj (fields : List (String × Json))

/-- First binding for a key in a JSON object's field list (JSON objects are
looked up by key; serde reads the first occurrence). -/
def jlookup (kvs : List (String × Json)) (k : String) : Option Json :=
  match kvs with
  | [] => none
  | (k', v) :: rest => if k' = k then some v else jlookup rest k

/-- Deserialize a required `String`-typed field (`TransferId`, plain
`String`). -/
def getStr (kvs : List (String × Json)) (k : String) : Option String :=
  match jlookup kvs k with
  | some (.str s) => some s
  | _ => none

/-- Deserialize a required integer field (`i64` / `Timestamp`). -/
def getInt (kvs : List (String × Json)) (k : String) : Option Int :=
  match jlookup kvs k with
  | some (.num n) => some n
  | _ => none

/-- Deserialize a required `bool` field. -/
def getBool (kvs : List (String × Json)) (k : String) : Option Bool :=
  match jlookup kvs k with
  | some (.bool b) => some b
  | _ => none

/-- Deserialize an `Option<String>` field: absent or `null` gives `None`,
a string gives `Some`, anything else is a type mismatch. -/
def getOptStr (kvs : List (String × Json)) (k : String) : Option (Option String) :=
  match jlookup kvs k with
  | none => some none
  | some .null => some none
  | some (.str s) => some (some s)
  | _ => none

/-- Modelled from the spec: `Expandable<T>` (defined in `crate::params`, not
in this module) is "a sum type representing either a bare identifier or a
fully hydrated `T`; serializes as the identifier string when not expanded".
The hydrated record (`BalanceTransaction`, `Account`, `Charge` — all
external resources) is kept as its raw JSON object. -/
inductive Expandable where
  | id (s : String)
  | obj (fields : List (String × Json))

/-- JSON form of an `Expandable`: the bare identifier string, or the
hydrated object. -/
def Expandable.toJson : Expandable → Json
  | .id s => .str s
  | .obj f => .obj f

/-- Deserialize an `Option<Expandable<T>>` field: absent or `null` gives
`None`; a string is a bare identifier; an object is a hydrated record. -/
def getOptExpandable (kvs : List (String × Json)) (k : String) :
    Option (Option Expandable) :=
  match jlookup kvs k with
  | none => some none
  | some .null => some none
  | some (.str s) => some (some (.id s))
  | some (.obj f) => some (some (.obj f))
  | _ => none

/-- Modelled from the spec: `Metadata` (external, `crate::params`) is "a
key-value metadata mapping (string keys, string values …, insertion order
may be preserved)"; embedded as an association list. -/
def metadataOfJson : List (String × Json) → Option (List (String × String))
  | [] => some []
  | kv :: rest =>
    match kv.2 with
    | .str s => (metadataOfJson rest).map fun md => (kv.1, s) :: md
    | _ => none

/-- Deserialize the required `metadata` field. -/
def getMetadata (kvs : List (String × Json)) (k : String) :
    Option (List (String × String)) :=
  match jlookup kvs k with
  | some (.obj ms) => metadataOfJson ms
  | _ => none

/-- Serialize metadata back to a JSON object. -/
def metadataToJson (md : List (String × String)) : Json :=
  .obj (md.map fun kv => (kv.1, .str kv.2))

/-- Modelled from the spec: the external paginated list container
(`List<TransferReversal>`): "an ordered paginated list of reversal
sub-records" with `data`, `has_more`, `url` (§6). `TransferReversal` is an
external resource, so the element records and the whole container are kept
as raw JSON (`raw`) alongside the decoded pagination fields, and the
container round-trips its own JSON. -/
structure StripeList where
  raw : List (String × Json)
  data : List Json
  has_more : Bool
  url : String

/-- Deserialize the required `reversals` field: a JSON object with a `data`
array, a `has_more` boolean and a `url` string. -/
def getStripeList (kvs : List (String × Json)) (k : String) : Option StripeList :=
  match jlookup kvs k with
  | some (.obj f) =>
    match jlookup f "data", jlookup f "has_more", jlookup f "url" with
    | some (.arr d), some (.bool h), some (.str u) => some ⟨f, d, h, u⟩
    | _, _, _ => none
  | _ => none

/-- The `Transfer` struct, field for field from the source declaration.
`TransferId` and `Currency` are string-typed, `Timestamp` is `i64`. -/
structure Transfer where
  id : String
  amount : Int
  amount_reversed : Int
  balance_transaction : Option Expandable
  created : Int
  currency : String
  description : Option String
  destination : Option Expandable
  destination_payment : Option Expandable
  livemode : Bool
  metadata : List (String × String)
  reversals : StripeList
  reversed : Bool
  source_transaction : Option Expandable
  source_type : Option String
  transfer_group : Option String

/-- Derived `Deserialize` for `Transfer`: each non-`Option` field is
required (missing key or type mismatch fails); each `Option` field accepts
absent or `null` as `None`. Unknown keys are ignored (serde default). -/
def Transfer.fromJson (j : Json) : Option Transfer :=
  match j with
  | .obj kvs =>
    (getStr kvs "id").bind fun id =>
    (getInt kvs "amount").bind fun amount =>
    (getInt kvs "amount_reversed").bind fun amount_reversed =>
    (getOptExpandable kvs "balance_transaction").bind fun balance_transaction =>
    (getInt kvs "created").bind fun created =>
    (getStr kvs "currency").bind fun currency =>
    (getOptStr kvs "description").bind fun description =>
    (getOptExpandable kvs "destination").bind fun destination =>
    (getOptExpandable kvs "destination_payment").bind fun destination_payment =>
    (getBool kvs "livemode").bind fun livemode =>
    (getMetadata kvs "metadata").bind fun metadata =>
    (getStripeList kvs "reversals").bind fun reversals =>
    (getBool kvs "reversed").bind fun reversed =>
    (getOptExpandable kvs "source_transaction").bind fun source_transaction =>
    (getOptStr kvs "source_type").bind fun source_type =>
    (getOptStr kvs "transfer_group").bind fun transfer_group =>
    some ⟨id, amount, amount_reversed, balance_transaction, created, currency,
      description, destination, destination_payment, livemode, metadata,
      reversals, reversed, source_transaction, source_type, transfer_group⟩
  | _ => none

/-- An optional field of the serialized output: omitted entirely when the
`Option` is `None` (`#[serde(skip_serializing_if = "Option::is_none")]`). -/
def optField (k : String) (o : Option Json) : List (String × Json) :=
  match o with
  | none => []
  | some v => [(k, v)]

/-- Derived `Serialize` for `Transfer`: fields in declaration order; the
seven `Option` fields are omitted when `None`. -/
def Transfer.toFields (t : Transfer) : List (String × Json) :=
  [("id", .str t.id), ("amount", .num t.amount),
    ("amount_reversed", .num t.amount_reversed)]
  ++ optField "balance_transaction" (t.balance_transaction.map Expandable.toJson)
  ++ [("created", .num t.created), ("currency", .str t.currency)]
  ++ optField "description" (t.description.map .str)
  ++ optField "destination" (t.destination.map Expandable.toJson)
  ++ optField "destination_payment" (t.destination_payment.map Expandable.toJson)
  ++ [("livemode", .bool t.livemode), ("metadata", metadataToJson t.metadata),
    ("reversals", .obj t.reversals.raw), ("reversed", .bool t.reversed)]
  ++ optField "source_transaction" (t.source_transaction.map Expandable.toJson)
  ++ optField "source_type" (t.source_type.map .str)
  ++ optField "transfer_group" (t.transfer_group.map .str)

/-- Serialization of a `Transfer` as a JSON object. -/
def Transfer.toJson (t : Transfer) : Json :=
  .obj t.toFields

/-- `impl Object for Transfer`: `fn id(&self) -> &Self::Id { &self.id }`.
Named `idAccessor` because the field projection already takes `id`. -/
def Transfer.idAccessor (t : Transfer) : String :=
  t.id

/-- `impl Object for Transfer`: `fn object(&self) -> &'static str
{ "transfer" }`. -/
def Transfer.object (_ : Transfer) : String :=
  "transfer"

/-- Modelled from the spec: `RangeQuery<Timestamp>` (external) is a
"range-query object, field names `gt`/`gte`/`lt`/`lte` style". -/
structure RangeQuery where
  gt : Option Int
  gte : Option Int
  lt : Option Int
  lte : Option Int

/-- The `TransferListParams` struct, field for field from the source
declaration (`limit` is `u64`, the cursors are `TransferId` references,
`expand` is a slice of field-path strings). -/
structure TransferListParams where
  created : Option RangeQuery
  ending_before : Option String
  expand : List String
  limit : Option Nat
  starting_after : Option String

/-- Derived `Default` for `TransferListParams`: every `Option` field is
`None` and the `expand` slice is empty. -/
def TransferListParams.default : TransferListParams :=
  ⟨none, none, [], none, none⟩

/-- The `reversals` object of the spec's example JSON. -/
def exampleReversalsJson : List (String × Json) :=
  [("object", .str "list"), ("data", .arr []), ("has_more", .bool false),
    ("url", .str "/v1/transfers/tr_1/reversals")]

/-- The spec's example Transfer JSON: the nine required fields only. -/
def exampleBaseFields : List (String × Json) :=
  [("id", .str "tr_1"), ("amount", .num 1000), ("amount_reversed", .num 0),
    ("created", .num 1690000000), ("currency", .str "usd"),
    ("livemode", .bool false), ("metadata", .obj []),
    ("reversals", .obj exampleReversalsJson), ("reversed", .bool false)]

/-- An explicit `null` binding for key `k` when `b` is true, nothing
otherwise. -/
def optNull (b : Bool) (k : String) : List (String × Json) :=
  if b then [(k, .null)] else []

/-- The spec's example JSON, with each of the seven optional fields either
absent (flag `false`) or bound to an explicit `null` (flag `true`). -/
def exampleJsonWith (b1 b2 b3 b4 b5 b6 b7 : Bool) : Json :=
  .obj (optNull b1 "balance_transaction" ++ optNull b2 "description"
    ++ optNull b3 "destination" ++ optNull b4 "destination_payment"
    ++ optNull b5 "source_transaction" ++ optNull b6 "source_type"
    ++ optNull b7 "transfer_group" ++ exampleBaseFields)

/-- The `Transfer` the spec's example JSON deserializes to. -/
def exampleTransfer : Transfer :=
  ⟨"tr_1", 1000, 0, none, 1690000000, "usd", none, none, none, false, [],
    ⟨exampleReversalsJson, [], false, "/v1/transfers/tr_1/reversals"⟩,
    false, none, none, none⟩

/-- A JSON object whose nine required fields all have the declared types,
with arbitrary `amount`, `amount_reversed` and `reversed` values. -/
def wellTypedTransferJson (a ar : Int) (rev : Bool) : Json :=
  .obj [("id", .str "tr_1"), ("amount", .num a), ("amount_reversed", .num ar),
    ("created", .num 1690000000), ("currency", .str "usd"),
    ("livemode", .bool true), ("metadata", .obj []),
    ("reversals", .obj exampleReversalsJson), ("reversed", .bool rev)]

/-- The `Transfer` that `wellTypedTransferJson` deserializes to. -/
def wellTypedTransfer (a ar : Int) (rev : Bool) : Transfer :=
  ⟨"tr_1", a, ar, none, 1690000000, "usd", none, none, none, true, [],
    ⟨exampleReversalsJson, [], false, "/v1/transfers/tr_1/reversals"⟩,
    rev, none, none, none⟩

/-- C3: for every `Transfer` value, regardless of its fields, `object()`
returns the literal static string `"transfer"`. -/
theorem transfer_object_literal : ∀ t : Transfer, t.object = "transfer" :=
  fun _ => rfl

/-- C4: for every `Transfer` value, the `id()` accessor returns exactly the
value stored in the `id` field. -/
theorem transfer_id_accessor : ∀ t : Transfer, t.idAccessor = t.id :=
  fun _ => rfl

/-- C9: the `Default` value of `TransferListParams` has every field unset:
`created`, `ending_before`, `limit` and `starting_after` are `None` and
`expand` is the empty slice. -/
theorem transferListParams_default_unset :
    TransferListParams.default.created = none
    ∧ TransferListParams.default.ending_before = none
    ∧ TransferListParams.default.expand = []
    ∧ TransferListParams.default.limit = none
    ∧ TransferListParams.default.starting_after = none :=
  ⟨rfl, rfl, rfl, rfl, rfl⟩

/-- C5: deserialization checks nothing beyond the declared field types:
a well-typed JSON object with `reversed: true` and `amount_reversed ≠
amount` still deserializes successfully — the `reversed == true →
amount_reversed == amount` invariant is not checked by this object. -/
theorem transfer_deserialize_no_invariant_check (a ar : Int) (h : a ≠ ar) :
    Transfer.fromJson (wellTypedTransferJson a ar true)
      = some (wellTypedTransfer a ar true)
    ∧ (wellTypedTransfer a ar true).reversed = true
    ∧ (wellTypedTransfer a ar true).amount_reversed
      ≠ (wellTypedTransfer a ar true).amount :=
  ⟨rfl, rfl, fun hc => h hc.symm⟩

/-- Witness for C5 at `amount = 1000`, `amount_reversed = 5`. -/
theorem transfer_deserialize_no_invariant_check_witness :
    Transfer.fromJson (wellTypedTransferJson 1000 5 true)
      = some (wellTypedTransfer 1000 5 true)
    ∧ (wellTypedTransfer 1000 5 true).reversed = true
    ∧ (wellTypedTransfer 1000 5 true).amount_reversed
      ≠ (wellTypedTransfer 1000 5 true).amount :=
  transfer_deserialize_no_invariant_check 1000 5 (by decide)

/-- C6: each optional field deserializes to `None` whether it is absent or
explicitly `null` (all 128 combinations over the seven optional fields of
the spec's example JSON yield the same `Transfer`), and the example
deserializes with `amount_reversed = 0`, `destination = None` and
`object() = "transfer"`. -/
theorem transfer_optional_absent_or_null :
    ∀ b1 b2 b3 b4 b5 b6 b7 : Bool,
      Transfer.fromJson (exampleJsonWith b1 b2 b3 b4 b5 b6 b7)
        = some exampleTransfer
      ∧ exampleTransfer.amount_reversed = 0
      ∧ exampleTransfer.destination = none
      ∧ exampleTransfer.object = "transfer" := by
  intro b1 b2 b3 b4 b5 b6 b7
  cases b1 <;> cases b2 <;> cases b3 <;> cases b4 <;> cases b5 <;> cases b6
    <;> cases b7 <;> exact ⟨rfl, rfl, rfl, rfl⟩

/-- A query-string key as produced by the client's serializer: a plain
field name, a sub-field of a range-query object (`created[gt]`), or an
indexed entry of a sequence (`expand[0]`). -/
inductive QKey where
  | simple (name : String)
  | sub (name : String) (child : String)
  | idx (name : String) (i : Nat)
deriving DecidableEq

/-- Rendering of a query key in the query string. -/
def QKey.render : QKey → String
  | .simple n => n
  | .sub n c => n ++ "[" ++ c ++ "]"
  | .idx n i => n ++ "[" ++ toString i ++ "]"

/-- A query pair for an optional scalar field: nothing when `None` (the
query-string serializer emits nothing for a `None`), the rendered value
when set. -/
def optPair (k : QKey) (o : Option String) : List (QKey × String) :=
  match o with
  | none => []
  | some v => [(k, v)]

/-- Modelled from the spec: query pairs of a `RangeQuery<Timestamp>` bound
to field `name` — one `name[gt]`/`name[gte]`/`name[lt]`/`name[lte]` pair
per bound that is set. -/
def rangeQueryPairs (name : String) (r : RangeQuery) : List (QKey × String) :=
  optPair (.sub name "gt") (r.gt.map toString)
  ++ optPair (.sub name "gte") (r.gte.map toString)
  ++ optPair (.sub name "lt") (r.lt.map toString)
  ++ optPair (.sub name "lte") (r.lte.map toString)

/-- Query pairs of the `created` field: nothing when `None`. -/
def createdPairs (o : Option RangeQuery) : List (QKey × String) :=
  match o with
  | none => []
  | some r => rangeQueryPairs "created" r

/-- Query pairs of the `expand` slice: one indexed pair per element, in
order; nothing when the slice is empty. -/
def expandPairs (name : String) : Nat → List String → List (QKey × String)
  | _, [] => []
  | i, s :: rest => (.idx name i, s) :: expandPairs name (i + 1) rest

/-- Modelled from the spec: the query-string serialization of
`TransferListParams` performed inside `client.get_query` ("serializes
`params` into a query string (omitting any field that is `None`/empty, per
field)"). The struct's `skip_deserializing_if` attributes are inert for
serialization; the omission of unset fields is the serializer's treatment
of `None` options and empty sequences. Fields appear in declaration
order. -/
def TransferListParams.queryPairs (p : TransferListParams) : List (QKey × String) :=
  createdPairs p.created
  ++ optPair (.simple "ending_before") p.ending_before
  ++ expandPairs "expand" 0 p.expand
  ++ optPair (.simple "limit") (p.limit.map toString)
  ++ optPair (.simple "starting_after") p.starting_after

/-- The rendered query string: `key=value` pairs joined by `&`. -/
def TransferListParams.queryString (p : TransferListParams) : String :=
  String.intercalate "&" (p.queryPairs.map fun kv => kv.1.render ++ "=" ++ kv.2)

theorem mem_optPair {k k' : QKey} {v : String} {o : Option String} :
    (k', v) ∈ optPair k o ↔ k' = k ∧ o = some v := by
  cases o with
  | none => simp [optPair]
  | some a =>
    simp only [optPair, List.mem_singleton, Prod.mk.injEq, Option.some.injEq]
    exact ⟨fun h => ⟨h.1, h.2.symm⟩, fun h => ⟨h.1, h.2.symm⟩⟩

theorem mem_createdPairs {kv : QKey × String} {o : Option RangeQuery} :
    kv ∈ createdPairs o ↔ ∃ r, o = some r ∧ kv ∈ rangeQueryPairs "created" r := by
  cases o <;> simp [createdPairs]

theorem simple_not_mem_expandPairs (n name v : String) (b : Nat) (l : List String) :
    (QKey.simple n, v) ∉ expandPairs name b l := by
  induction l generalizing b with
  | nil => simp [expandPairs]
  | cons s rest ih => simp [expandPairs]; exact ih (b + 1)

theorem sub_not_mem_expandPairs (n c name v : String) (b : Nat) (l : List String) :
    (QKey.sub n c, v) ∉ expandPairs name b l := by
  induction l generalizing b with
  | nil => simp [expandPairs]
  | cons s rest ih => simp [expandPairs]; exact ih (b + 1)

theorem mem_expandPairs_of_get (name : String) (l : List String) :
    ∀ b i v, l.get? i = some v → (QKey.idx name (b + i), v) ∈ expandPairs name b l := by
  induction l with
  | nil => intro b i v h; simp at h
  | cons s rest ih =>
    intro b i v h
    cases i with
    | zero =>
      simp at h
      simp [expandPairs, h]
    | succ j =>
      have hmem := ih (b + 1) j v h
      have harith : b + (j + 1) = b + 1 + j := by omega
      rw [expandPairs, harith]
      exact List.mem_cons_of_mem _ hmem

/-- C1: for every `TransferListParams` value, serializing it for the query
string omits every field left at its default (`None` options, empty
`expand`), every field that is set appears with its exact value, and the
params value with only `limit = Some(5)` renders to exactly `limit=5`. -/
theorem transferListParams_query_serialization (p : TransferListParams) :
    (p.created = none → ∀ c v, (QKey.sub "created" c, v) ∉ p.queryPairs)
    ∧ (∀ r g, p.created = some r → r.gt = some g →
        (QKey.sub "created" "gt", toString g) ∈ p.queryPairs)
    ∧ (∀ r g, p.created = some r → r.gte = some g →
        (QKey.sub "created" "gte", toString g) ∈ p.queryPairs)
    ∧ (∀ r g, p.created = some r → r.lt = some g →
        (QKey.sub "created" "lt", toString g) ∈ p.queryPairs)
    ∧ (∀ r g, p.created = some r → r.lte = some g →
        (QKey.sub "created" "lte", toString g) ∈ p.queryPairs)
    ∧ (p.ending_before = none → ∀ v, (QKey.simple "ending_before", v) ∉ p.queryPairs)
    ∧ (∀ s, p.ending_before = some s → (QKey.simple "ending_before", s) ∈ p.queryPairs)
    ∧ (p.expand = [] → ∀ i v, (QKey.idx "expand" i, v) ∉ p.queryPairs)
    ∧ (∀ i v, p.expand.get? i = some v → (QKey.idx "expand" i, v) ∈ p.queryPairs)
    ∧ (p.limit = none → ∀ v, (QKey.simple "limit", v) ∉ p.queryPairs)
    ∧ (∀ n, p.limit = some n → (QKey.simple "limit", toString n) ∈ p.queryPairs)
    ∧ (p.starting_after = none → ∀ v, (QKey.simple "starting_after", v) ∉ p.queryPairs)
    ∧ (∀ s, p.starting_after = some s → (QKey.simple "starting_after", s) ∈ p.queryPairs)
    ∧ TransferListParams.queryString ⟨none, none, [], some 5, none⟩ = "limit=5" := by
  obtain ⟨cr, eb, ex, li, sa⟩ := p
  refine ⟨?_, ?_, ?_, ?_, ?_, ?_, ?_, ?_, ?_, ?_, ?_, ?_, ?_, ?_⟩
  · intro h c v
    subst h
    simp [TransferListParams.queryPairs, List.mem_append, mem_createdPairs,
      mem_optPair, sub_not_mem_expandPairs]
  · intro r g hcr hgt
    subst hcr
    simp [TransferListParams.queryPairs, List.mem_append, mem_createdPairs,
      createdPairs, rangeQueryPairs, mem_optPair, hgt]
  · intro r g hcr hgt
    subst hcr
    simp [TransferListParams.queryPairs, List.mem_append, mem_createdPairs,
      createdPairs, rangeQueryPairs, mem_optPair, hgt]
  · intro r g hcr hgt
    subst hcr
    simp [TransferListParams.queryPairs, List.mem_append, mem_createdPairs,
      createdPairs, rangeQueryPairs, mem_optPair, hgt]
  · intro r g hcr hgt
    subst hcr
    simp [TransferListParams.queryPairs, List.mem_append, mem_createdPairs,
      createdPairs, rangeQueryPairs, mem_optPair, hgt]
  · intro h v
    subst h
    simp [TransferListParams.queryPairs, List.mem_append, mem_createdPairs,
      rangeQueryPairs, mem_optPair, simple_not_mem_expandPairs]
  · intro s hs
    subst hs
    simp [TransferListParams.queryPairs, List.mem_append, mem_optPair]
  · intro h i v
    subst h
    simp [TransferListParams.queryPairs, List.mem_append, mem_createdPairs,
      rangeQueryPairs, mem_optPair, expandPairs]
  · intro i v h
    have hm := mem_expandPairs_of_get "expand" ex 0 i v h
    rw [Nat.zero_add] at hm
    simp only [TransferListParams.queryPairs, List.mem_append]
    tauto
  · intro h v
    subst h
    simp [TransferListParams.queryPairs, List.mem_append, mem_createdPairs,
      rangeQueryPairs, mem_optPair, simple_not_mem_expandPairs]
  · intro n hn
    subst hn
    simp [TransferListParams.queryPairs, List.mem_append, mem_optPair]
  · intro h v
    subst h
    simp [TransferListParams.queryPairs, List.mem_append, mem_createdPairs,
      rangeQueryPairs, mem_optPair, simple_not_mem_expandPairs]
  · intro s hs
    subst hs
    simp [TransferListParams.queryPairs, List.mem_append, mem_optPair]
  · rfl

/-- Witness for C1: the limit-only params value has the `limit` pair and
renders to exactly `limit=5`. -/
theorem transferListParams_query_serialization_witness :
    (QKey.simple "limit", "5")
      ∈ TransferListParams.queryPairs ⟨none, none, [], some 5, none⟩
    ∧ TransferListParams.queryString ⟨none, none, [], some 5, none⟩ = "limit=5" := by
  obtain ⟨h1, h2, h3, h4, h5, h6, h7, h8, h9, h10, h11, h12, h13, h14⟩ :=
    transferListParams_query_serialization ⟨none, none, [], some 5, none⟩
  exact ⟨h11 5 rfl, h14⟩

/-- The typed paginated response container for `Transfer::list`
(`List<Transfer>`): `data`, `has_more`, `url` (spec §6). -/
structure TransferList where
  data : List Transfer
  has_more : Bool
  url : String

/-- Deserialization of the list response body: a JSON object with a `data`
array of Transfer objects, a `has_more` boolean and a `url` string; the
`data` elements are decoded in order. -/
def TransferList.fromJson (j : Json) : Option TransferList :=
  match j with
  | .obj kvs =>
    match jlookup kvs "data", jlookup kvs "has_more", jlookup kvs "url" with
    | some (.arr d), some (.bool h), some (.str u) =>
      match d.mapM Transfer.fromJson with
      | some ts => some ⟨ts, h, u⟩
      | none => none
    | _, _, _ => none
  | _ => none

/-- Modelled from the spec (§7): the error taxonomy of the external client
layer — transport/network error, structured API error response (non-2xx),
or schema mismatch during deserialization. -/
inductive StripeError where
  | transport (msg : String)
  | api (status : Nat) (body : String)
  | deserialization
deriving DecidableEq

/-- An HTTP request as issued by the client: method, path, query pairs. -/
structure Request where
  method : String
  path : String
  query : List (QKey × String)

/-- Modelled from the spec: the injected HTTP client (external collaborator,
`crate::config`). Its transport behaviour is an arbitrary function from a
request to either a client-layer error or a JSON response body. -/
structure Client where
  execute : Request → Except StripeError Json

/-- Modelled from the spec (§4.2): `client.get_query(path, params)`
serializes the params into the query string, issues a single GET to the
path, and deserializes the JSON body; transport/API errors and schema
mismatches surface as client-layer errors. The first component records the
requests issued. -/
def Client.get_query (c : Client) (path : String) (p : TransferListParams) :
    List Request × Except StripeError TransferList :=
  let req : Request := ⟨"GET", path, p.queryPairs⟩
  ⟨[req],
    match c.execute req with
    | .error e => .error e
    | .ok j =>
      match TransferList.fromJson j with
      | some l => .ok l
      | none => .error .deserialization⟩

/-- `Transfer::list`: `client.get_query("/transfers", &params)`. -/
def Transfer.list (c : Client) (p : TransferListParams) :
    List Request × Except StripeError TransferList :=
  c.get_query "/transfers" p

/-- C7: `Transfer::list` issues exactly one GET, to the fixed path
`/transfers` with the serialized params as query, and returns the client's
deserialized paginated list unchanged (the decoded `data`, in
server-determined order, with no local re-sorting). -/
theorem transfer_list_get_query (c : Client) (p : TransferListParams) :
    (Transfer.list c p).1 = [⟨"GET", "/transfers", p.queryPairs⟩]
    ∧ ∀ j l, c.execute ⟨"GET", "/transfers", p.queryPairs⟩ = .ok j →
        TransferList.fromJson j = some l → (Transfer.list c p).2 = .ok l := by
  refine ⟨rfl, ?_⟩
  intro j l hj hl
  simp [Transfer.list, Client.get_query, hj, hl]

/-- A client whose transport always answers with an empty transfer list. -/
def okClient : Client :=
  ⟨fun _ => .ok (.obj [("object", .str "list"), ("data", .arr []),
    ("has_more", .bool false), ("url", .str "/v1/transfers")])⟩

/-- Witness for C7: against `okClient`, `Transfer::list` returns the
decoded empty list. -/
theorem transfer_list_get_query_witness :
    (Transfer.list okClient TransferListParams.default).2
      = .ok ⟨[], false, "/v1/transfers"⟩ :=
  (transfer_list_get_query okClient TransferListParams.default).2
    (.obj [("object", .str "list"), ("data", .arr []),
      ("has_more", .bool false), ("url", .str "/v1/transfers")])
    ⟨[], false, "/v1/transfers"⟩ rfl rfl

/-- C8: every client-layer error outcome — transport/API error from the
transport, or schema mismatch during deserialization — surfaces from
`Transfer::list` exactly as produced, with no retry, no catching and no
transformation. -/
theorem transfer_list_error_propagation (c : Client) (p : TransferListParams) :
    (∀ e, c.execute ⟨"GET", "/transfers", p.queryPairs⟩ = .error e →
        (Transfer.list c p).2 = .error e)
    ∧ (∀ j, c.execute ⟨"GET", "/transfers", p.queryPairs⟩ = .ok j →
        TransferList.fromJson j = none →
        (Transfer.list c p).2 = .error .deserialization) := by
  constructor
  · intro e he
    simp [Transfer.list, Client.get_query, he]
  · intro j hj hnone
    simp [Transfer.list, Client.get_query, hj, hnone]

/-- A client whose transport always fails. -/
def failingClient : Client :=
  ⟨fun _ => .error (.transport "connection reset")⟩

/-- Witness for C8: the transport error of `failingClient` surfaces
unchanged. -/
theorem transfer_list_error_propagation_witness :
    (Transfer.list failingClient TransferListParams.default).2
      = .error (.transport "connection reset") :=
  (transfer_list_error_propagation failingClient TransferListParams.default).1
    (.transport "connection reset") rfl

theorem getStr_eq {kvs : List (String × Json)} {k s : String}
    (h : getStr kvs k = some s) : jlookup kvs k = some (.str s) := by
  rw [getStr] at h
  split at h
  · rename_i heq
    rw [heq]
    simp at h
    rw [h]
  · simp at h

theorem getInt_eq {kvs : List (String × Json)} {k : String} {n : Int}
    (h : getInt kvs k = some n) : jlookup kvs k = some (.num n) := by
  rw [getInt] at h
  split at h
  · rename_i heq
    rw [heq]
    simp at h
    rw [h]
  · simp at h

theorem getBool_eq {kvs : List (String × Json)} {k : String} {b : Bool}
    (h : getBool kvs k = some b) : jlookup kvs k = some (.bool b) := by
  rw [getBool] at h
  split at h
  · rename_i heq
    rw [heq]
    simp at h
    rw [h]
  · simp at h

theorem getOptStr_eq {kvs : List (String × Json)} {k : String} {o : Option String}
    (hnull : jlookup kvs k ≠ some .null) (h : getOptStr kvs k = some o) :
    jlookup kvs k = o.map Json.str := by
  rw [getOptStr] at h
  split at h
  · rename_i heq
    simp at h
    rw [heq, ← h]
    rfl
  · rename_i heq
    exact absurd heq hnull
  · rename_i s heq
    simp at h
    rw [heq, ← h]
    rfl
  · simp at h

theorem getOptExpandable_eq {kvs : List (String × Json)} {k : String}
    {o : Option Expandable} (hnull : jlookup kvs k ≠ some .null)
    (h : getOptExpandable kvs k = some o) :
    jlookup kvs k = o.map Expandable.toJson := by
  rw [getOptExpandable] at h
  split at h
  · rename_i heq
    simp at h
    rw [heq, ← h]
    rfl
  · rename_i heq
    exact absurd heq hnull
  · rename_i s heq
    simp at h
    rw [heq, ← h]
    rfl
  · rename_i f heq
    simp at h
    rw [heq, ← h]
    rfl
  · simp at h

theorem metadataOfJson_inv : ∀ {ms : List (String × Json)}
    {md : List (String × String)}, metadataOfJson ms = some md →
    md.map (fun kv => (kv.1, Json.str kv.2)) = ms := by
  intro ms
  induction ms with
  | nil =>
    intro md h
    simp [metadataOfJson] at h
    subst h
    rfl
  | cons kv rest ih =>
    intro md h
    rcases kv with ⟨k, v⟩
    rw [metadataOfJson] at h
    cases v <;> simp [Option.map_eq_some'] at h
    obtain ⟨md', hmd', hcons⟩ := h
    subst hcons
    rename_i s
    simp [ih hmd']

theorem getMetadata_eq {kvs : List (String × Json)} {k : String}
    {md : List (String × String)} (h : getMetadata kvs k = some md) :
    jlookup kvs k = some (metadataToJson md) := by
  rw [getMetadata] at h
  split at h
  · rename_i ms heq
    rw [heq, metadataToJson, metadataOfJson_inv h]
  · simp at h

theorem getStripeList_eq {kvs : List (String × Json)} {k : String}
    {l : StripeList} (h : getStripeList kvs k = some l) :
    jlookup kvs k = some (.obj l.raw) := by
  rw [getStripeList] at h
  split at h
  · rename_i f heq
    split at h
    · rename_i d hm u hd hhm hu
      rw [heq]
      simp at h
      rw [← h]
    · simp at h
  · simp at h

/-- Inversion of `Transfer.fromJson`: a successful deserialization
determines each getter's result from the corresponding field of the
produced `Transfer`. -/
theorem fromJson_inv {kvs : List (String × Json)} {t : Transfer}
    (h : Transfer.fromJson (.obj kvs) = some t) :
    getStr kvs "id" = some t.id
    ∧ getInt kvs "amount" = some t.amount
    ∧ getInt kvs "amount_reversed" = some t.amount_reversed
    ∧ getOptExpandable kvs "balance_transaction" = some t.balance_transaction
    ∧ getInt kvs "created" = some t.created
    ∧ getStr kvs "currency" = some t.currency
    ∧ getOptStr kvs "description" = some t.description
    ∧ getOptExpandable kvs "destination" = some t.destination
    ∧ getOptExpandable kvs "destination_payment" = some t.destination_payment
    ∧ getBool kvs "livemode" = some t.livemode
    ∧ getMetadata kvs "metadata" = some t.metadata
    ∧ getStripeList kvs "reversals" = some t.reversals
    ∧ getBool kvs "reversed" = some t.reversed
    ∧ getOptExpandable kvs "source_transaction" = some t.source_transaction
    ∧ getOptStr kvs "source_type" = some t.source_type
    ∧ getOptStr kvs "transfer_group" = some t.transfer_group := by
  rw [Transfer.fromJson] at h
  rw [Option.bind_eq_some'] at h
  obtain ⟨i, hi, h⟩ := h
  rw [Option.bind_eq_some'] at h
  obtain ⟨a, ha, h⟩ := h
  rw [Option.bind_eq_some'] at h
  obtain ⟨ar, har, h⟩ := h
  rw [Option.bind_eq_some'] at h
  obtain ⟨bt, hbt, h⟩ := h
  rw [Option.bind_eq_some'] at h
  obtain ⟨c, hc, h⟩ := h
  rw [Option.bind_eq_some'] at h
  obtain ⟨cur, hcur, h⟩ := h
  rw [Option.bind_eq_some'] at h
  obtain ⟨de, hde, h⟩ := h
  rw [Option.bind_eq_some'] at h
  obtain ⟨d, hd, h⟩ := h
  rw [Option.bind_eq_some'] at h
  obtain ⟨dp, hdp, h⟩ := h
  rw [Option.bind_eq_some'] at h
  obtain ⟨lm, hlm, h⟩ := h
  rw [Option.bind_eq_some'] at h
  obtain ⟨md, hmd, h⟩ := h
  rw [Option.bind_eq_some'] at h
  obtain ⟨rv, hrv, h⟩ := h
  rw [Option.bind_eq_some'] at h
  obtain ⟨rvd, hrvd, h⟩ := h
  rw [Option.bind_eq_some'] at h
  obtain ⟨st, hst, h⟩ := h
  rw [Option.bind_eq_some'] at h
  obtain ⟨sty, hsty, h⟩ := h
  rw [Option.bind_eq_some'] at h
  obtain ⟨tg, htg, h⟩ := h
  rw [Option.some.injEq] at h
  subst h
  exact ⟨hi, ha, har, hbt, hc, hcur, hde, hd, hdp, hlm, hmd, hrv, hrvd,
    hst, hsty, htg⟩

/-- C10: deserialization of a `Transfer` requires all nine non-`Option`
fields — whenever it succeeds, `id`, `amount`, `amount_reversed`,
`created`, `currency`, `livemode`, `metadata`, `reversals` and `reversed`
were all present in the input object (equivalently, it fails whenever one
of them is missing; only the seven `Option` fields may be absent). -/
theorem transfer_required_fields_present {kvs : List (String × Json)}
    {t : Transfer} (h : Transfer.fromJson (.obj kvs) = some t) :
    (jlookup kvs "id").isSome ∧ (jlookup kvs "amount").isSome
    ∧ (jlookup kvs "amount_reversed").isSome ∧ (jlookup kvs "created").isSome
    ∧ (jlookup kvs "currency").isSome ∧ (jlookup kvs "livemode").isSome
    ∧ (jlookup kvs "metadata").isSome ∧ (jlookup kvs "reversals").isSome
    ∧ (jlookup kvs "reversed").isSome := by
  obtain ⟨hi, ha, har, _, hc, hcur, _, _, _, hlm, hmd, hrv, hrvd, _, _, _⟩ :=
    fromJson_inv h
  exact ⟨by rw [getStr_eq hi]; rfl, by rw [getInt_eq ha]; rfl,
    by rw [getInt_eq har]; rfl, by rw [getInt_eq hc]; rfl,
    by rw [getStr_eq hcur]; rfl, by rw [getBool_eq hlm]; rfl,
    by rw [getMetadata_eq hmd]; rfl, by rw [getStripeList_eq hrv]; rfl,
    by rw [getBool_eq hrvd]; rfl⟩

/-- Witness for C10 at the spec's example JSON. -/
theorem transfer_required_fields_present_witness :
    (jlookup exampleBaseFields "id").isSome
    ∧ (jlookup exampleBaseFields "amount").isSome
    ∧ (jlookup exampleBaseFields "amount_reversed").isSome
    ∧ (jlookup exampleBaseFields "created").isSome
    ∧ (jlookup exampleBaseFields "currency").isSome
    ∧ (jlookup exampleBaseFields "livemode").isSome
    ∧ (jlookup exampleBaseFields "metadata").isSome
    ∧ (jlookup exampleBaseFields "reversals").isSome
    ∧ (jlookup exampleBaseFields "reversed").isSome :=
  @transfer_required_fields_present exampleBaseFields exampleTransfer rfl

theorem jlookup_append (xs ys : List (String × Json)) (k : String) :
    jlookup (xs ++ ys) k = (jlookup xs k).or (jlookup ys k) := by
  induction xs with
  | nil => rfl
  | cons kv rest ih =>
    rcases kv with ⟨k', v⟩
    by_cases hk : k' = k <;> simp [jlookup, hk, ih]

theorem jlookup_optField (k k' : String) (o : Option Json) :
    jlookup (optField k o) k' = if k = k' then o else none := by
  cases o with
  | none => simp [optField, jlookup]
  | some v => simp [optField, jlookup]

/-- The sixteen field names of the `Transfer` JSON schema, in declaration
order. -/
def transferKeys : List String :=
  ["id", "amount", "amount_reversed", "balance_transaction", "created",
    "currency", "description", "destination", "destination_payment",
    "livemode", "metadata", "reversals", "reversed", "source_transaction",
    "source_type", "transfer_group"]

/-- Whether a JSON value is `null`. -/
def Json.isNull : Json → Bool
  | .null => true
  | _ => false

/-- A well-formed Transfer JSON object for the round-trip property: its
keys are drawn from the Transfer schema and its optional fields are absent
— not bound to an explicit `null` — when unset, the outgoing wire format of
spec §6 ("optional fields absent (not null) when unset on the wire"). -/
def wellFormedTransferJson (kvs : List (String × Json)) : Bool :=
  kvs.all fun kv => transferKeys.contains kv.1 && !kv.2.isNull

theorem wf_no_null {kvs : List (String × Json)}
    (hwf : wellFormedTransferJson kvs = true) :
    ∀ k, jlookup kvs k ≠ some .null := by
  induction kvs with
  | nil => intro k h; simp [jlookup] at h
  | cons kv rest ih =>
    rcases kv with ⟨k', v⟩
    simp only [wellFormedTransferJson, List.all_cons, Bool.and_eq_true] at hwf
    obtain ⟨⟨hcont, hnn⟩, hrest⟩ := hwf
    intro k h
    rw [jlookup] at h
    by_cases hk : k' = k
    · rw [if_pos hk] at h
      injection h with h
      subst h
      simp [Json.isNull] at hnn
    · rw [if_neg hk] at h
      exact ih hrest k h

theorem wf_unknown {kvs : List (String × Json)}
    (hwf : wellFormedTransferJson kvs = true) :
    ∀ k, k ∉ transferKeys → jlookup kvs k = none := by
  induction kvs with
  | nil => intro k _; rfl
  | cons kv rest ih =>
    rcases kv with ⟨k', v⟩
    simp only [wellFormedTransferJson, List.all_cons, Bool.and_eq_true] at hwf
    obtain ⟨⟨hcont, hnn⟩, hrest⟩ := hwf
    intro k hk
    rw [jlookup]
    by_cases hkk : k' = k
    · subst hkk
      exact absurd (by simpa using hcont) hk
    · rw [if_neg hkk]
      exact ih hrest k hk

theorem toFields_id (t : Transfer) :
    jlookup t.toFields "id" = some (.str t.id) := by
  simp [Transfer.toFields, jlookup_append, jlookup_optField, jlookup]

theorem toFields_amount (t : Transfer) :
    jlookup t.toFields "amount" = some (.num t.amount) := by
  simp [Transfer.toFields, jlookup_append, jlookup_optField, jlookup]

theorem toFields_amount_reversed (t : Transfer) :
    jlookup t.toFields "amount_reversed" = some (.num t.amount_reversed) := by
  simp [Transfer.toFields, jlookup_append, jlookup_optField, jlookup]

theorem toFields_balance_transaction (t : Transfer) :
    jlookup t.toFields "balance_transaction"
      = t.balance_transaction.map Expandable.toJson := by
  cases h : t.balance_transaction <;>
    simp [Transfer.toFields, jlookup_append, jlookup_optField, jlookup, h]

theorem toFields_created (t : Transfer) :
    jlookup t.toFields "created" = some (.num t.created) := by
  cases h : t.balance_transaction <;>
    simp [Transfer.toFields, jlookup_append, jlookup_optField, jlookup, h]

theorem toFields_currency (t : Transfer) :
    jlookup t.toFields "currency" = some (.str t.currency) := by
  cases h : t.balance_transaction <;>
    simp [Transfer.toFields, jlookup_append, jlookup_optField, jlookup, h]

theorem toFields_description (t : Transfer) :
    jlookup t.toFields "description" = t.description.map Json.str := by
  cases h : t.description <;>
    simp [Transfer.toFields, jlookup_append, jlookup_optField, jlookup, h]

theorem toFields_destination (t : Transfer) :
    jlookup t.toFields "destination" = t.destination.map Expandable.toJson := by
  cases h : t.destination <;>
    simp [Transfer.toFields, jlookup_append, jlookup_optField, jlookup, h]

theorem toFields_destination_payment (t : Transfer) :
    jlookup t.toFields "destination_payment"
      = t.destination_payment.map Expandable.toJson := by
  cases h : t.destination_payment <;>
    simp [Transfer.toFields, jlookup_append, jlookup_optField, jlookup, h]

theorem toFields_livemode (t : Transfer) :
    jlookup t.toFields "livemode" = some (.bool t.livemode) := by
  simp [Transfer.toFields, jlookup_append, jlookup_optField, jlookup]

theorem toFields_metadata (t : Transfer) :
    jlookup t.toFields "metadata" = some (metadataToJson t.metadata) := by
  simp [Transfer.toFields, jlookup_append, jlookup_optField, jlookup]

theorem toFields_reversals (t : Transfer) :
    jlookup t.toFields "reversals" = some (.obj t.reversals.raw) := by
  simp [Transfer.toFields, jlookup_append, jlookup_optField, jlookup]

theorem toFields_reversed (t : Transfer) :
    jlookup t.toFields "reversed" = some (.bool t.reversed) := by
  simp [Transfer.toFields, jlookup_append, jlookup_optField, jlookup]

theorem toFields_source_transaction (t : Transfer) :
    jlookup t.toFields "source_transaction"
      = t.source_transaction.map Expandable.toJson := by
  cases h : t.source_transaction <;>
    simp [Transfer.toFields, jlookup_append, jlookup_optField, jlookup, h]

theorem toFields_source_type (t : Transfer) :
    jlookup t.toFields "source_type" = t.source_type.map Json.str := by
  cases h : t.source_type <;>
    simp [Transfer.toFields, jlookup_append, jlookup_optField, jlookup, h]

theorem toFields_transfer_group (t : Transfer) :
    jlookup t.toFields "transfer_group" = t.transfer_group.map Json.str := by
  cases h : t.transfer_group <;>
    simp [Transfer.toFields, jlookup_append, jlookup_optField, jlookup, h]

theorem toFields_unknown (t : Transfer) (k : String) (hk : k ∉ transferKeys) :
    jlookup t.toFields k = none := by
  simp only [transferKeys, List.mem_cons, List.not_mem_nil, or_false,
    not_or] at hk
  obtain ⟨h1, h2, h3, h4, h5, h6, h7, h8, h9, h10, h11, h12, h13, h14, h15,
    h16⟩ := hk
  simp [Transfer.toFields, jlookup_append, jlookup_optField, jlookup,
    Ne.symm h1, Ne.symm h2, Ne.symm h3, Ne.symm h4, Ne.symm h5, Ne.symm h6,
    Ne.symm h7, Ne.symm h8, Ne.symm h9, Ne.symm h10, Ne.symm h11,
    Ne.symm h12, Ne.symm h13, Ne.symm h14, Ne.symm h15, Ne.symm h16]

/-- C2: round-trip. For every well-formed Transfer JSON object (keys drawn
from the schema, optional fields absent rather than `null` when unset)
that deserializes to a `Transfer`, re-serializing that `Transfer` yields a
JSON object that agrees with the input on the lookup of every key: every
optional field absent in the input is omitted entirely (both lookups
`none`, never an emitted `null`) and every field present in the input
keeps its exact value. -/
theorem transfer_roundtrip {kvs : List (String × Json)} {t : Transfer}
    (hwf : wellFormedTransferJson kvs = true)
    (h : Transfer.fromJson (.obj kvs) = some t) :
    ∀ k, jlookup t.toFields k = jlookup kvs k := by
  intro k
  obtain ⟨hi, ha, har, hbt, hc, hcur, hde, hd, hdp, hlm, hmd, hrv, hrvd,
    hst, hsty, htg⟩ := fromJson_inv h
  by_cases hk : k ∈ transferKeys
  · simp only [transferKeys, List.mem_cons, List.not_mem_nil, or_false] at hk
    rcases hk with rfl | rfl | rfl | rfl | rfl | rfl | rfl | rfl | rfl | rfl
      | rfl | rfl | rfl | rfl | rfl | rfl
    · rw [toFields_id, getStr_eq hi]
    · rw [toFields_amount, getInt_eq ha]
    · rw [toFields_amount_reversed, getInt_eq har]
    · rw [toFields_balance_transaction,
        getOptExpandable_eq (wf_no_null hwf _) hbt]
    · rw [toFields_created, getInt_eq hc]
    · rw [toFields_currency, getStr_eq hcur]
    · rw [toFields_description, getOptStr_eq (wf_no_null hwf _) hde]
    · rw [toFields_destination, getOptExpandable_eq (wf_no_null hwf _) hd]
    · rw [toFields_destination_payment,
        getOptExpandable_eq (wf_no_null hwf _) hdp]
    · rw [toFields_livemode, getBool_eq hlm]
    · rw [toFields_metadata, getMetadata_eq hmd]
    · rw [toFields_reversals, getStripeList_eq hrv]
    · rw [toFields_reversed, getBool_eq hrvd]
    · rw [toFields_source_transaction,
        getOptExpandable_eq (wf_no_null hwf _) hst]
    · rw [toFields_source_type, getOptStr_eq (wf_no_null hwf _) hsty]
    · rw [toFields_transfer_group, getOptStr_eq (wf_no_null hwf _) htg]
  · rw [toFields_unknown t k hk, wf_unknown hwf k hk]

/-- Witness for C2 at the spec's example JSON: the absent `description`
stays omitted after the round-trip and the present `amount` keeps its
value. -/
theorem transfer_roundtrip_witness :
    wellFormedTransferJson exampleBaseFields = true
    ∧ jlookup exampleTransfer.toFields "description"
      = jlookup exampleBaseFields "description"
    ∧ jlookup exampleTransfer.toFields "amount"
      = jlookup exampleBaseFields "amount" :=
  ⟨rfl, @transfer_roundtrip exampleBaseFields exampleTransfer rfl rfl "description",
    @transfer_roundtrip exampleBaseFields exampleTransfer rfl rfl "amount"⟩
